import Mathlib

/-!
Shallow embedding of the bulk WhatsApp sender (`src/index.js`, class
`WhatsappBulkSender`).  Phone numbers and CSV content are modelled as
`List Char`; the JavaScript regular expression `/[\s\-+()]/g` becomes a
character filter; the HTTP transport (`axios`) is an oracle parameter.
-/

/-- Character class matched by the JavaScript escape `\s` (ASCII part).
JS also matches some Unicode space code points, which never occur in the
inputs considered here. -/
def jsWhitespace (c : Char) : Bool :=
  c == ' ' || c == '\t' || c == '\n' || c == '\r' || c == '\x0b' || c == '\x0c'

/-- Characters removed by `phone.replace(/[\s\-+()]/g, '')`. -/
def strippedChar (c : Char) : Bool :=
  jsWhitespace c || c == '-' || c == '+' || c == '(' || c == ')'

/-- `String(phone).replace(/[\s\-+()]/g, '')` from `formatPhoneNumber` /
`validateAndFormatPhone`. -/
def cleanPhone (phone : List Char) : List Char :=
  phone.filter fun c => !(strippedChar c)

/-- JavaScript `String.prototype.trim` (drops surrounding whitespace). -/
def jsTrim (s : List Char) : List Char :=
  ((s.dropWhile jsWhitespace).reverse.dropWhile jsWhitespace).reverse

/-- JavaScript `String.prototype.split(sep)` for a one-character separator. -/
def splitOnChar (sep : Char) : List Char → List (List Char)
  | [] => [[]]
  | c :: rest =>
    match splitOnChar sep rest with
    | [] => if c == sep then [[], []] else [[c]]
    | h :: t => if c == sep then [] :: h :: t else (c :: h) :: t

/-- `cleaned.startsWith('57')` from the phone helpers. -/
def startsWith57 : List Char → Bool
  | '5' :: '7' :: _ => true
  | _ => false

/-- `formatPhoneNumber` (src/index.js lines 190-206): clean the number;
return it unchanged if it starts with `57`; if it is 10 digits starting
with `3`, prepend `57`; otherwise return the cleaned value as is. -/
def formatPhoneNumber (phone : List Char) : List Char :=
  if startsWith57 (cleanPhone phone) then cleanPhone phone
  else if (cleanPhone phone).length == 10 && (cleanPhone phone)[0]? == some '3' then
    '5' :: '7' :: cleanPhone phone
  else cleanPhone phone

/-- `validateAndFormatPhone` (src/index.js lines 213-225): reject
empty/whitespace-only input; accept a cleaned value that starts with `57`,
has length 12 and has `3` at position 2, or one of length 10 starting with
`3` (then prepend `57`); otherwise return `false`, modelled as `none`. -/
def validateAndFormatPhone (phone : List Char) : Option (List Char) :=
  if jsTrim phone = [] then none
  else if startsWith57 (cleanPhone phone) && (cleanPhone phone).length == 12 &&
      (cleanPhone phone)[2]? == some '3' then
    some (cleanPhone phone)
  else if !(startsWith57 (cleanPhone phone)) && (cleanPhone phone).length == 10 &&
      (cleanPhone phone)[0]? == some '3' then
    some ('5' :: '7' :: cleanPhone phone)
  else
    none

/-- The acceptance condition actually tested by `validateAndFormatPhone`
on the cleaned value (either branch). -/
def shapeAccepts (v : List Char) : Bool :=
  (startsWith57 v && v.length == 12 && v[2]? == some '3') ||
  (!(startsWith57 v) && v.length == 10 && v[0]? == some '3')

/-- Shape of every phone value stored by ingestion: `57` followed by a
10-character tail starting with `3` (12 characters in total). -/
def canonicalShape (v : List Char) : Bool :=
  startsWith57 v && v.length == 12 && v[2]? == some '3'

/-- A recipient record produced by ingestion (`{ phone: formattedPhone }`). -/
structure Recipient where
  phone : List Char
deriving DecidableEq

/-- `loadRecipientsFromCSV` (src/index.js lines 279-310), applied to the
file content.  Rows are kept when they are non-blank, have a value under
the `TELEFONO` column, and that value passes `validateAndFormatPhone`.
An all-blank file makes `lines[0].split` throw in JS; the surrounding
`catch` returns `[]`, modelled by the `[]` branch. -/
def loadRecipientsFromCSV (content : List Char) : List Recipient :=
  let lines := (splitOnChar '\n' content).filter fun l => !(jsTrim l).isEmpty
  match lines with
  | [] => []
  | headerLine :: dataRows =>
    let headers := (splitOnChar ',' headerLine).map jsTrim
    match headers.findIdx? (fun h => h == "TELEFONO".data) with
    | none => []
    | some telefonoIndex =>
      dataRows.filterMap fun line =>
        let values := (splitOnChar ',' line).map jsTrim
        if telefonoIndex < values.length then
          match validateAndFormatPhone (values.getD telefonoIndex []) with
          | some formattedPhone => some ⟨formattedPhone⟩
          | none => none
        else none

example : validateAndFormatPhone "3001234567".data = some "573001234567".data := by decide
example : validateAndFormatPhone "99999".data = none := by decide
example : formatPhoneNumber "3001234567".data = "573001234567".data := by decide
example : formatPhoneNumber "12345".data = "12345".data := by decide
example : validateAndFormatPhone "3abcdefghi".data = some "573abcdefghi".data := by decide
example : loadRecipientsFromCSV "TELEFONO\n99999\n573001234567".data =
    [⟨"573001234567".data⟩] := by decide
example : loadRecipientsFromCSV "NOMBRE\n573001234567".data = [] := by decide
example : loadRecipientsFromCSV "NOMBRE,TELEFONO\nana,300 123 4567\nbob".data =
    [⟨"573001234567".data⟩] := by decide

/-- Outcome of `axios.post` as observed by `sendMessage`: either the
promise resolves and `response.data.messages` carries the listed ids, or
it rejects with an error having an optional `response.data` body and a
`message` string.  A present body is assumed truthy (it is a JSON
object in practice). -/
inductive AxiosResult where
  | resolved (messageIds : List String)
  | rejected (responseData : Option String) (message : String)
deriving DecidableEq

/-- One `DispatchOutcome`: the object literal returned by `sendMessage`,
either `{success: true, messageId, to}` or `{success: false, to, error}`. -/
inductive DispatchOutcome where
  | success (messageId : String) (toNumber : List Char)
  | failure (toNumber : List Char) (error : String)
deriving DecidableEq

/-- The `to` field present in both outcome variants. -/
def DispatchOutcome.toPhone : DispatchOutcome → List Char
  | DispatchOutcome.success _ t => t
  | DispatchOutcome.failure t _ => t

/-- Message of the `TypeError` thrown while evaluating
`response.data?.messages[0].id` when the resolved response carries no
message entry (a malformed success response). -/
def undefinedIdMessage : String := "Cannot read properties of undefined"

/-- Body of the `try` block of `sendMessage`: awaiting `axios.post` either
rethrows the transport rejection, or the message id is extracted --
which itself throws (with no `response` field on the error) when the
`messages` array is absent/empty. -/
def sendMessageTry (toNumber : List Char) (transport : AxiosResult) :
    Except (Option String × String) DispatchOutcome :=
  match transport with
  | AxiosResult.rejected responseData message => Except.error (responseData, message)
  | AxiosResult.resolved messageIds =>
    match messageIds with
    | [] => Except.error (none, undefinedIdMessage)
    | msgId :: _ => Except.ok (DispatchOutcome.success msgId toNumber)

/-- `sendMessage` (src/index.js lines 88-131): the `catch` clause turns
every thrown error into `{success: false, to, error: error.response?.data
|| error.message}`, so the call never raises past its own boundary. -/
def sendMessage (toNumber : List Char) (transport : AxiosResult) : DispatchOutcome :=
  match sendMessageTry toNumber transport with
  | Except.ok outcome => outcome
  | Except.error (responseData, message) =>
      DispatchOutcome.failure toNumber (responseData.getD message)

/-- An error record pushed onto `stats.errors`. -/
structure ErrorRecord where
  phone : List Char
  error : String
deriving DecidableEq

/-- The `this.stats` object of `WhatsappBulkSender`. -/
structure Stats where
  total : Nat
  sent : Nat
  failed : Nat
  errors : List ErrorRecord
deriving DecidableEq

/-- The stats as initialised by the constructor. -/
def freshStats : Stats := ⟨0, 0, 0, []⟩

/-- The per-outcome statistics update inside `sendBulkMessages`
(src/index.js lines 250-262): success increments `sent`; failure
increments `failed` and appends `{phone: recipient.phone, error}`. -/
def foldOutcome (stats : Stats) (recipient : Recipient) (result : DispatchOutcome) : Stats :=
  match result with
  | DispatchOutcome.success _ _ => ⟨stats.total, stats.sent + 1, stats.failed, stats.errors⟩
  | DispatchOutcome.failure _ err =>
      ⟨stats.total, stats.sent, stats.failed + 1, stats.errors ++ [⟨recipient.phone, err⟩]⟩

/-- `this.messageDelay = 1000 / this.maxMessagesPerSecond` with
`maxMessagesPerSecond = 80`, i.e. 12.5 ms.  Delays are modelled in
microseconds so that the exact value 12500 stays in `Nat`. -/
def messageDelayUs : Nat := 1000000 / 80

/-- The fixed `await this.sleep(1000)` between batches, in microseconds. -/
def interBatchPauseUs : Nat := 1000000

/-- A point of the scheduler's timing behaviour: a dispatch preceded by
its staggering delay (`await this.sleep((i + index) * this.messageDelay)`
at global position `i + index`), or an inter-batch pause. -/
inductive SchedEvent where
  | dispatch (globalIndex : Nat) (delayUs : Nat)
  | pause (delayUs : Nat)
deriving DecidableEq

/-- Whether a scheduler event is an inter-batch pause. -/
def SchedEvent.isPause : SchedEvent → Bool
  | SchedEvent.pause _ => true
  | SchedEvent.dispatch _ _ => false

/-- `batch.map(async (recipient, index) => ...)` together with
`Promise.all`: recipient at batch position `index` sleeps
`(i + index) * messageDelay`, dispatches, and folds its outcome into the
stats.  `g` is the global position `i + index`.  `Promise.all` returns
the outcomes in batch position order; within a batch only the
completion order of the stats updates is timing-dependent, and no
claim depends on the order of `stats.errors` entries. -/
def processBatch (oracle : Nat → AxiosResult) :
    Nat → List Recipient → Stats → List DispatchOutcome × Stats × List SchedEvent
  | _, [], stats => ([], stats, [])
  | g, recipient :: rest, stats =>
      let ev := SchedEvent.dispatch g (g * messageDelayUs)
      let result := sendMessage recipient.phone (oracle g)
      let stats2 := foldOutcome stats recipient result
      let next := processBatch oracle (g + 1) rest stats2
      (result :: next.1, next.2.1, ev :: next.2.2)

/-- The `for (let i = 0; i < recipients.length; i += batchSize)` loop of
`sendBulkMessages` with `batchSize = 50`: slice off a batch, process it,
and pause 1000 ms when `i + batchSize < recipients.length`.  The loop
runs at most once per recipient, so `fuel := recipients.length` makes
the recursion structural; `n` is `recipients.length` and `i` the batch
start offset. -/
def sendBulkLoop (oracle : Nat → AxiosResult) (n : Nat) :
    Nat → Nat → List Recipient → Stats → List DispatchOutcome × Stats × List SchedEvent
  | _, _, [], stats => ([], stats, [])
  | 0, _, _ :: _, stats => ([], stats, [])
  | fuel + 1, i, r :: rs, stats =>
      let batch := r :: rs.take 49
      let rest := rs.drop 49
      let pb := processBatch oracle i batch stats
      let pauses := if i + 50 < n then [SchedEvent.pause interBatchPauseUs] else []
      let next := sendBulkLoop oracle n fuel (i + 50) rest pb.2.1
      (pb.1 ++ next.1, next.2.1, pb.2.2 ++ (pauses ++ next.2.2))

/-- `sendBulkMessages` (src/index.js lines 227-272).  The method first
assigns `this.stats.total = recipients.length` -- and touches no other
stats field -- then runs the batch loop.  The transport is abstracted by
`oracle`, giving the `axios` behaviour of the dispatch at each global
position; template parameters and buttons only shape the request payload
and are absorbed into the oracle.  Returns (results, final stats, timing
trace). -/
def sendBulkMessages (oracle : Nat → AxiosResult) (recipients : List Recipient)
    (s0 : Stats) : List DispatchOutcome × Stats × List SchedEvent :=
  let stats1 : Stats := ⟨recipients.length, s0.sent, s0.failed, s0.errors⟩
  sendBulkLoop oracle recipients.length recipients.length 0 recipients stats1

/-- Value of a JavaScript floating-point expression as produced by the
summary's percentage arithmetic: an exact rational, `NaN`, or `Infinity`. -/
inductive JSNum where
  | num (q : ℚ)
  | nan
  | posInf
deriving DecidableEq

/-- JavaScript division of the two non-negative counters: division by
zero yields `NaN` for `0/0` and `Infinity` otherwise -- it never throws. -/
def jsDivNat (a b : Nat) : JSNum :=
  if b = 0 then (if a = 0 then JSNum.nan else JSNum.posInf)
  else JSNum.num ((a : ℚ) / (b : ℚ))

/-- Multiplication by 100 lifted over `JSNum` (`NaN`/`Infinity` absorb). -/
def jsMul100 : JSNum → JSNum
  | JSNum.num q => JSNum.num (q * 100)
  | JSNum.nan => JSNum.nan
  | JSNum.posInf => JSNum.posInf

/-- The data rendered by `showSummary` (src/index.js lines 323-341):
counts, the two percentages `(sent/total)*100` and `(failed/total)*100`,
the preview `errors.slice(0, 10)`, and the `... y N errores más` count
shown when more than 10 errors exist. -/
structure SummaryView where
  total : Nat
  sent : Nat
  failed : Nat
  sentPercent : JSNum
  failedPercent : JSNum
  errorPreview : List ErrorRecord
  suppressed : Option Nat
deriving DecidableEq

/-- `showSummary` as a pure rendering of the statistics. -/
def showSummary (s : Stats) : SummaryView :=
  ⟨s.total, s.sent, s.failed,
   jsMul100 (jsDivNat s.sent s.total),
   jsMul100 (jsDivNat s.failed s.total),
   s.errors.take 10,
   if 10 < s.errors.length then some (s.errors.length - 10) else none⟩

/-- Transport oracle where every dispatch succeeds with a fixed id. -/
def oracleOk : Nat → AxiosResult := fun _ => AxiosResult.resolved ["wamid.test.1"]

/-- Statistics after a first run over one valid recipient on a fresh
sender (all transports succeeding). -/
def firstRunStats : Stats :=
  (sendBulkMessages oracleOk [⟨"573001234567".data⟩] freshStats).2.1

/-- Statistics after a second identical run on the same sender. -/
def secondRunStats : Stats :=
  (sendBulkMessages oracleOk [⟨"573001234567".data⟩] firstRunStats).2.1

example : firstRunStats = ⟨1, 1, 0, []⟩ := by decide
example : secondRunStats = ⟨1, 2, 0, []⟩ := by decide
example : (sendBulkMessages oracleOk [] freshStats).2.1 = freshStats := by decide
example : (showSummary freshStats).sentPercent = JSNum.nan := by decide
example :
    (sendBulkMessages (fun _ => AxiosResult.rejected (some "errbody") "boom")
      [⟨"573001234567".data⟩] freshStats).2.1 =
    ⟨1, 0, 1, [⟨"573001234567".data, "errbody"⟩]⟩ := by decide
example :
    (sendBulkMessages oracleOk [⟨"573001234567".data⟩, ⟨"573001234568".data⟩] freshStats).2.2 =
    [SchedEvent.dispatch 0 0, SchedEvent.dispatch 1 12500] := by decide

/-!  Sequential specification of the scheduler and supporting lemmas. -/

/-- The dispatch sequence in input order: position `k` of
`dispatchAll oracle g l` is the outcome of recipient `k` of `l`
dispatched at global position `g + k`. -/
def dispatchAll (oracle : Nat → AxiosResult) : Nat → List Recipient → List DispatchOutcome
  | _, [] => []
  | g, r :: rest => sendMessage r.phone (oracle g) :: dispatchAll oracle (g + 1) rest

/-- Whether an outcome is the success variant. -/
def isSuccess : DispatchOutcome → Bool
  | DispatchOutcome.success _ _ => true
  | DispatchOutcome.failure _ _ => false

/-- Number of success outcomes in a list. -/
def successCount (os : List DispatchOutcome) : Nat := os.countP isSuccess

/-- Number of failure outcomes in a list. -/
def failureCount (os : List DispatchOutcome) : Nat := os.countP fun o => !(isSuccess o)

/-- The error records contributed by the failure outcomes, in order. -/
def failureRecords (os : List DispatchOutcome) : List ErrorRecord :=
  os.filterMap fun o =>
    match o with
    | DispatchOutcome.success _ _ => none
    | DispatchOutcome.failure t e => some ⟨t, e⟩

/-- Folding a list of outcomes into the statistics: `total` untouched,
`sent`/`failed` incremented per outcome, error records appended. -/
def accum (stats : Stats) (os : List DispatchOutcome) : Stats :=
  ⟨stats.total, stats.sent + successCount os, stats.failed + failureCount os,
   stats.errors ++ failureRecords os⟩

theorem sendMessage_toPhone (p : List Char) (t : AxiosResult) :
    (sendMessage p t).toPhone = p := by
  cases t with
  | resolved ids => cases ids <;> rfl
  | rejected rd m => rfl

theorem dispatchAll_length (oracle : Nat → AxiosResult) (l : List Recipient) :
    ∀ g, (dispatchAll oracle g l).length = l.length := by
  induction l with
  | nil => intro g; rfl
  | cons r rest ih => intro g; simp [dispatchAll, ih]

theorem dispatchAll_getElem? (oracle : Nat → AxiosResult) (l : List Recipient) :
    ∀ g k, (dispatchAll oracle g l)[k]? =
      (l[k]?).map fun r => sendMessage r.phone (oracle (g + k)) := by
  induction l with
  | nil => intro g k; simp [dispatchAll]
  | cons r rest ih =>
      intro g k
      cases k with
      | zero => simp [dispatchAll]
      | succ k =>
          have harith : g + (k + 1) = (g + 1) + k := by omega
          simp only [dispatchAll, List.getElem?_cons_succ, harith]
          exact ih (g + 1) k

theorem dispatchAll_map_toPhone (oracle : Nat → AxiosResult) (l : List Recipient) :
    ∀ g, (dispatchAll oracle g l).map DispatchOutcome.toPhone = l.map Recipient.phone := by
  induction l with
  | nil => intro g; rfl
  | cons r rest ih => intro g; simp [dispatchAll, sendMessage_toPhone, ih]

theorem dispatchAll_append (oracle : Nat → AxiosResult) (l1 l2 : List Recipient) :
    ∀ g, dispatchAll oracle g (l1 ++ l2) =
      dispatchAll oracle g l1 ++ dispatchAll oracle (g + l1.length) l2 := by
  induction l1 with
  | nil => intro g; simp [dispatchAll]
  | cons r rest ih =>
      intro g
      have harith : g + (rest.length + 1) = (g + 1) + rest.length := by omega
      simp only [List.cons_append, dispatchAll, List.length_cons, harith]
      exact congrArg _ (ih (g + 1))

theorem successCount_add_failureCount (os : List DispatchOutcome) :
    successCount os + failureCount os = os.length := by
  induction os with
  | nil => rfl
  | cons o os ih =>
      cases o <;> simp [successCount, failureCount, List.countP_cons, isSuccess] at * <;> omega

theorem accum_nil (s : Stats) : accum s [] = s := by
  cases s; simp [accum, successCount, failureCount, failureRecords]

theorem accum_append (s : Stats) (os1 os2 : List DispatchOutcome) :
    accum (accum s os1) os2 = accum s (os1 ++ os2) := by
  simp [accum, successCount, failureCount, failureRecords, List.countP_append,
    List.filterMap_append, List.append_assoc, Nat.add_assoc]

/-- Timing trace of one batch of `k` dispatches beginning at global
position `g`: each dispatch is preceded by its staggering delay. -/
def batchTrace (g : Nat) : Nat → List SchedEvent
  | 0 => []
  | k + 1 => SchedEvent.dispatch g (g * messageDelayUs) :: batchTrace (g + 1) k

theorem batchTrace_getElem? (k : Nat) :
    ∀ g j, (batchTrace g k)[j]? =
      if j < k then some (SchedEvent.dispatch (g + j) ((g + j) * messageDelayUs)) else none := by
  induction k with
  | zero => intro g j; simp [batchTrace]
  | succ k ih =>
      intro g j
      cases j with
      | zero => simp [batchTrace]
      | succ j =>
          have harith : g + (j + 1) = (g + 1) + j := by omega
          simp only [batchTrace, List.getElem?_cons_succ, ih (g + 1) j, harith]
          by_cases hjk : j < k
          · simp [hjk, Nat.lt_succ_of_lt hjk, Nat.add_lt_add_iff_right]
          · simp [hjk, Nat.add_lt_add_iff_right]

theorem batchTrace_length (k : Nat) : ∀ g, (batchTrace g k).length = k := by
  induction k with
  | zero => intro g; rfl
  | succ k ih => intro g; simp [batchTrace, ih]

theorem batchTrace_mem (k : Nat) :
    ∀ g a d, SchedEvent.dispatch a d ∈ batchTrace g k → d = a * messageDelayUs := by
  induction k with
  | zero => intro g a d h; simp [batchTrace] at h
  | succ k ih =>
      intro g a d h
      simp only [batchTrace, List.mem_cons] at h
      rcases h with h | h
      · cases h; rfl
      · exact ih (g + 1) a d h

theorem batchTrace_noPause (k : Nat) :
    ∀ g, (batchTrace g k).filter SchedEvent.isPause = [] := by
  induction k with
  | zero => intro g; rfl
  | succ k ih => intro g; simp [batchTrace, List.filter_cons, SchedEvent.isPause, ih]

theorem accum_fold (stats : Stats) (r : Recipient) (o : DispatchOutcome)
    (os : List DispatchOutcome) (h : o.toPhone = r.phone) :
    accum (foldOutcome stats r o) os = accum stats (o :: os) := by
  cases o with
  | success msgId t =>
      simp [accum, foldOutcome, successCount, failureCount, failureRecords,
        List.countP_cons, isSuccess]
      all_goals omega
  | failure t e =>
      simp only [DispatchOutcome.toPhone] at h
      subst h
      simp [accum, foldOutcome, successCount, failureCount, failureRecords,
        List.countP_cons, isSuccess, List.append_assoc]
      all_goals omega

theorem processBatch_spec (oracle : Nat → AxiosResult) (batch : List Recipient) :
    ∀ g stats, processBatch oracle g batch stats =
      (dispatchAll oracle g batch, accum stats (dispatchAll oracle g batch),
       batchTrace g batch.length) := by
  induction batch with
  | nil => intro g stats; simp [processBatch, dispatchAll, batchTrace, accum_nil]
  | cons r rest ih =>
      intro g stats
      have hto : (sendMessage r.phone (oracle g)).toPhone = r.phone :=
        sendMessage_toPhone r.phone (oracle g)
      simp only [processBatch, dispatchAll, batchTrace, List.length_cons,
        ih (g + 1) (foldOutcome stats r (sendMessage r.phone (oracle g)))]
      rw [accum_fold stats r (sendMessage r.phone (oracle g))
        (dispatchAll oracle (g + 1) rest) hto]

theorem sendBulkLoop_nil (oracle : Nat → AxiosResult) (n fuel i : Nat) (stats : Stats) :
    sendBulkLoop oracle n fuel i [] stats = ([], stats, []) := by
  cases fuel <;> rfl

theorem sendBulkLoop_spec (oracle : Nat → AxiosResult) (n : Nat) :
    ∀ fuel remaining, remaining.length ≤ fuel → ∀ i stats,
      (sendBulkLoop oracle n fuel i remaining stats).1 = dispatchAll oracle i remaining ∧
      (sendBulkLoop oracle n fuel i remaining stats).2.1 =
        accum stats (dispatchAll oracle i remaining) := by
  intro fuel
  induction fuel with
  | zero =>
      intro remaining h i stats
      have hnil : remaining = [] := List.length_eq_zero.mp (Nat.le_zero.mp h)
      subst hnil
      simp [sendBulkLoop_nil, dispatchAll, accum_nil]
  | succ fuel ih =>
      intro remaining h i stats
      cases remaining with
      | nil => simp [sendBulkLoop_nil, dispatchAll, accum_nil]
      | cons r rs =>
          have hlen : (rs.drop 49).length ≤ fuel := by
            simp only [List.length_drop]
            simp only [List.length_cons] at h
            omega
          have hsplit : r :: rs = (r :: rs.take 49) ++ rs.drop 49 := by
            simp [List.take_append_drop]
          have hd : dispatchAll oracle i (r :: rs) =
              dispatchAll oracle i (r :: rs.take 49) ++
              dispatchAll oracle (i + (r :: rs.take 49).length) (rs.drop 49) := by
            conv_lhs => rw [hsplit]
            exact dispatchAll_append oracle (r :: rs.take 49) (rs.drop 49) i
          have hshift :
              dispatchAll oracle (i + (r :: rs.take 49).length) (rs.drop 49) =
              dispatchAll oracle (i + 50) (rs.drop 49) := by
            rcases Nat.le_total rs.length 49 with hle | hge
            · rw [List.drop_eq_nil_of_le hle]; rfl
            · have hbl : (r :: rs.take 49).length = 50 := by
                simp [List.length_take]; omega
              rw [hbl]
          obtain ⟨ih1, ih2⟩ := ih (rs.drop 49) hlen (i + 50)
            (accum stats (dispatchAll oracle i (r :: rs.take 49)))
          have hunfold : sendBulkLoop oracle n (fuel + 1) i (r :: rs) stats =
              ((processBatch oracle i (r :: rs.take 49) stats).1 ++
                 (sendBulkLoop oracle n fuel (i + 50) (rs.drop 49)
                   (processBatch oracle i (r :: rs.take 49) stats).2.1).1,
               (sendBulkLoop oracle n fuel (i + 50) (rs.drop 49)
                 (processBatch oracle i (r :: rs.take 49) stats).2.1).2.1,
               (processBatch oracle i (r :: rs.take 49) stats).2.2 ++
                 ((if i + 50 < n then [SchedEvent.pause interBatchPauseUs] else []) ++
                  (sendBulkLoop oracle n fuel (i + 50) (rs.drop 49)
                    (processBatch oracle i (r :: rs.take 49) stats).2.1).2.2)) := rfl
          rw [hunfold]
          simp only [processBatch_spec oracle (r :: rs.take 49) i stats]
          constructor
          · simp only [ih1]
            rw [hd, hshift]
          · simp only [ih2]
            rw [accum_append, ← hshift, ← hd]

theorem sendBulkLoop_cons_trace (oracle : Nat → AxiosResult) (n fuel i : Nat) (r : Recipient)
    (rs : List Recipient) (stats : Stats) :
    (sendBulkLoop oracle n (fuel + 1) i (r :: rs) stats).2.2 =
      (processBatch oracle i (r :: rs.take 49) stats).2.2 ++
        ((if i + 50 < n then [SchedEvent.pause interBatchPauseUs] else []) ++
         (sendBulkLoop oracle n fuel (i + 50) (rs.drop 49)
           (processBatch oracle i (r :: rs.take 49) stats).2.1).2.2) := rfl

theorem sendBulkLoop_trace_mem (oracle : Nat → AxiosResult) (n : Nat) :
    ∀ fuel remaining i stats g d,
      SchedEvent.dispatch g d ∈ (sendBulkLoop oracle n fuel i remaining stats).2.2 →
      d = g * messageDelayUs := by
  intro fuel
  induction fuel with
  | zero =>
      intro remaining i stats g d hmem
      cases remaining <;> simp [sendBulkLoop] at hmem
  | succ fuel ih =>
      intro remaining i stats g d hmem
      cases remaining with
      | nil => simp [sendBulkLoop_nil] at hmem
      | cons r rs =>
          rw [sendBulkLoop_cons_trace] at hmem
          simp only [processBatch_spec, List.mem_append] at hmem
          rcases hmem with hmem | hmem | hmem
          · exact batchTrace_mem _ _ _ _ hmem
          · by_cases hc : i + 50 < n <;> simp [hc] at hmem
          · exact ih (rs.drop 49) (i + 50) _ g d hmem

theorem sendBulkLoop_trace_head (oracle : Nat → AxiosResult) (n fuel i : Nat)
    (r : Recipient) (rs : List Recipient) (stats : Stats) :
    ((sendBulkLoop oracle n (fuel + 1) i (r :: rs) stats).2.2)[0]? =
      some (SchedEvent.dispatch i (i * messageDelayUs)) := by
  rw [sendBulkLoop_cons_trace]
  simp [processBatch_spec, batchTrace]

theorem sendBulkMessages_trace_noPause (oracle : Nat → AxiosResult)
    (recipients : List Recipient) (s0 : Stats) (h : recipients.length ≤ 50) :
    ((sendBulkMessages oracle recipients s0).2.2).filter SchedEvent.isPause = [] := by
  cases recipients with
  | nil => simp [sendBulkMessages, sendBulkLoop_nil]
  | cons r rs =>
      have hrs : rs.length ≤ 49 := by simp at h; omega
      have hdrop : rs.drop 49 = [] := List.drop_eq_nil_of_le hrs
      have hc : ¬ (50 < rs.length + 1) := by omega
      simp [sendBulkMessages, sendBulkLoop_cons_trace, processBatch_spec, hdrop,
        sendBulkLoop_nil, hc, batchTrace_noPause, List.filter_append]

theorem sendBulkMessages_trace_layout (oracle : Nat → AxiosResult)
    (recipients : List Recipient) (s0 : Stats) (h : 50 < recipients.length) :
    (∀ j, j < 50 → ((sendBulkMessages oracle recipients s0).2.2)[j]? =
        some (SchedEvent.dispatch j (j * messageDelayUs))) ∧
    ((sendBulkMessages oracle recipients s0).2.2)[50]? =
      some (SchedEvent.pause interBatchPauseUs) ∧
    ((sendBulkMessages oracle recipients s0).2.2)[51]? =
      some (SchedEvent.dispatch 50 (50 * messageDelayUs)) := by
  cases recipients with
  | nil => simp at h
  | cons r rs =>
      have hrs : 50 ≤ rs.length := by simp at h; omega
      have hbl : (r :: rs.take 49).length = 50 := by simp [List.length_take]; omega
      have hc : 50 < rs.length + 1 := by omega
      have htr : (sendBulkMessages oracle (r :: rs) s0).2.2 =
          batchTrace 0 50 ++
            ([SchedEvent.pause interBatchPauseUs] ++
             (sendBulkLoop oracle (r :: rs).length rs.length 50 (rs.drop 49)
               (accum ⟨(r :: rs).length, s0.sent, s0.failed, s0.errors⟩
                 (dispatchAll oracle 0 (r :: rs.take 49)))).2.2) := by
        show (sendBulkLoop oracle (r :: rs).length (rs.length + 1) 0 (r :: rs)
            ⟨(r :: rs).length, s0.sent, s0.failed, s0.errors⟩).2.2 = _
        rw [sendBulkLoop_cons_trace]
        simp [processBatch_spec, hbl, hc]
      have hlen50 : (batchTrace 0 50).length = 50 := batchTrace_length 50 0
      refine ⟨?_, ?_, ?_⟩
      · intro j hj
        rw [htr, List.getElem?_append, if_pos (by omega)]
        rw [batchTrace_getElem? 50 0 j, if_pos hj]
        simp
      · rw [htr, List.getElem?_append_right (by omega), hlen50]
        simp
      · rw [htr, List.getElem?_append_right (by omega), hlen50]
        have hrest : 1 ≤ (rs.drop 49).length := by simp [List.length_drop]; omega
        obtain ⟨x, xs, hxxs⟩ : ∃ x xs, rs.drop 49 = x :: xs := by
          cases hd : rs.drop 49 with
          | nil => rw [hd] at hrest; simp at hrest
          | cons x xs => exact ⟨x, xs, rfl⟩
        obtain ⟨f, hf⟩ : ∃ f, rs.length = f + 1 := ⟨rs.length - 1, by omega⟩
        rw [hxxs, hf]
        show ([SchedEvent.pause interBatchPauseUs] ++ _)[51 - 50]? = _
        rw [List.getElem?_append_right (by simp)]
        simp only [List.length_singleton]
        have hhead := sendBulkLoop_trace_head oracle (r :: rs).length f 50 x xs
          (accum ⟨(r :: rs).length, s0.sent, s0.failed, s0.errors⟩
            (dispatchAll oracle 0 (r :: rs.take 49)))
        simpa using hhead

theorem validateAndFormatPhone_shape (p c : List Char)
    (h : validateAndFormatPhone p = some c) : canonicalShape c = true := by
  unfold validateAndFormatPhone at h
  split at h
  · exact absurd h (by simp)
  · split at h
    · rename_i hcond
      simp only [Option.some.injEq] at h
      subst h
      exact hcond
    · split at h
      · rename_i hcond2
        simp only [Option.some.injEq] at h
        subst h
        simp only [Bool.and_eq_true, beq_iff_eq] at hcond2
        obtain ⟨⟨hns, hlen⟩, hget⟩ := hcond2
        simp only [canonicalShape, startsWith57, List.length_cons, Bool.and_eq_true,
          beq_iff_eq]
        refine ⟨⟨by simp, by omega⟩, ?_⟩
        simpa using hget
      · exact absurd h (by simp)

theorem validateAndFormatPhone_reject (p : List Char)
    (h : shapeAccepts (cleanPhone p) = false) : validateAndFormatPhone p = none := by
  simp only [shapeAccepts, Bool.or_eq_false_iff] at h
  obtain ⟨h1, h2⟩ := h
  unfold validateAndFormatPhone
  split
  · rfl
  · rw [if_neg (fun hc => by rw [hc] at h1; exact Bool.noConfusion h1),
        if_neg (fun hc => by rw [hc] at h2; exact Bool.noConfusion h2)]

theorem loadRecipientsFromCSV_shape (content : List Char) (r : Recipient)
    (h : r ∈ loadRecipientsFromCSV content) : canonicalShape r.phone = true := by
  dsimp only [loadRecipientsFromCSV] at h
  split at h
  · simp at h
  · split at h
    · simp at h
    · rw [List.mem_filterMap] at h
      obtain ⟨line, hline, hf⟩ := h
      split at hf
      · split at hf
        · rename_i formatted hv
          simp only [Option.some.injEq] at hf
          subst hf
          exact validateAndFormatPhone_shape _ _ hv
        · simp at hf
      · simp at hf

theorem sendBulkMessages_results (oracle : Nat → AxiosResult) (recipients : List Recipient)
    (s0 : Stats) :
    (sendBulkMessages oracle recipients s0).1 = dispatchAll oracle 0 recipients :=
  (sendBulkLoop_spec oracle recipients.length recipients.length recipients (Nat.le_refl _) 0
    ⟨recipients.length, s0.sent, s0.failed, s0.errors⟩).1

theorem sendBulkMessages_stats (oracle : Nat → AxiosResult) (recipients : List Recipient)
    (s0 : Stats) :
    (sendBulkMessages oracle recipients s0).2.1 =
      accum ⟨recipients.length, s0.sent, s0.failed, s0.errors⟩
        (dispatchAll oracle 0 recipients) :=
  (sendBulkLoop_spec oracle recipients.length recipients.length recipients (Nat.le_refl _) 0
    ⟨recipients.length, s0.sent, s0.failed, s0.errors⟩).2

theorem stripped_not_digit (c : Char) (h : strippedChar c = true) : c.isDigit = false := by
  simp only [strippedChar, jsWhitespace, Bool.or_eq_true, beq_iff_eq] at h
  rcases h with (((((((((h | h) | h) | h) | h) | h) | h) | h) | h) | h) <;> subst h <;> decide

theorem cleanPhone_digits (s : List Char) (h : s.all Char.isDigit = true) : cleanPhone s = s := by
  refine List.filter_eq_self.mpr ?_
  intro c hc
  have hd : c.isDigit = true := by
    rw [List.all_eq_true] at h
    exact h c hc
  cases hsc : strippedChar c
  · simp [hsc]
  · rw [stripped_not_digit c hsc] at hd
    exact Bool.noConfusion hd

/-!  Claim theorems. -/

/-- C1 (amended): starting from the constructor's zeroed counters, a
completed `sendBulkMessages` run satisfies `sent + failed = total` for
every recipient list including the empty one; with `total = 0` the
summary still evaluates its percentage divisions, whose zero denominator
yields `NaN` under JS semantics (no exception) instead of being skipped. -/
theorem C1_invariant_fresh_run (oracle : Nat → AxiosResult) (recipients : List Recipient) :
    ((sendBulkMessages oracle recipients freshStats).2.1.sent +
        (sendBulkMessages oracle recipients freshStats).2.1.failed =
      (sendBulkMessages oracle recipients freshStats).2.1.total) ∧
    (showSummary (sendBulkMessages oracle [] freshStats).2.1).sentPercent = JSNum.nan ∧
    (showSummary (sendBulkMessages oracle [] freshStats).2.1).failedPercent = JSNum.nan := by
  refine ⟨?_, rfl, rfl⟩
  rw [sendBulkMessages_stats]
  have hsf := successCount_add_failureCount (dispatchAll oracle 0 recipients)
  have hlen := dispatchAll_length oracle recipients 0
  simp only [accum, freshStats]
  omega

/-- C1 counterexample: on a sender whose stats already hold a previous
run (secondRunStats), a completed `sendBulkMessages` invocation ends
with `sent + failed = 2 ≠ 1 = total`; and with `total = 0` the summary
does evaluate a zero-denominator division (the percentage is `NaN`),
so the claim as stated fails. -/
theorem C1_cex :
    (secondRunStats.sent + secondRunStats.failed ≠ secondRunStats.total) ∧
    (showSummary (sendBulkMessages oracleOk [] freshStats).2.1).sentPercent = JSNum.nan := by
  decide

/-- C2 (amended): `sendBulkMessages` only assigns `total`; `sent`,
`failed` and `errors` keep their previous values and are incremented and
appended to by the run's outcomes, so statistics accumulate across runs
on the same sender instance. -/
theorem C2_stats_accumulate (oracle : Nat → AxiosResult) (recipients : List Recipient)
    (s0 : Stats) :
    (sendBulkMessages oracle recipients s0).2.1.total = recipients.length ∧
    (sendBulkMessages oracle recipients s0).2.1.sent =
      s0.sent + successCount (sendBulkMessages oracle recipients s0).1 ∧
    (sendBulkMessages oracle recipients s0).2.1.failed =
      s0.failed + failureCount (sendBulkMessages oracle recipients s0).1 ∧
    (sendBulkMessages oracle recipients s0).2.1.errors =
      s0.errors ++ failureRecords (sendBulkMessages oracle recipients s0).1 := by
  rw [sendBulkMessages_stats, sendBulkMessages_results]
  simp [accum]

/-- C2 counterexample: two identical single-recipient runs with identical
transport behaviour leave different statistics (`sent` grows 1 then 2),
which is impossible if the counters were zeroed at the start of each
invocation; statistics do accumulate across runs. -/
theorem C2_cex :
    secondRunStats.sent = 2 ∧ firstRunStats.sent = 1 ∧
    secondRunStats ≠ firstRunStats := by
  decide

/-- C3 (code-bug evidence): after a run over the empty list the stats
are `total = 0, sent = 0, failed = 0`, and `showSummary` on them renders
both percentages as `NaN`: the division `(0 / 0) * 100` is evaluated,
not guarded. -/
theorem C3_division_not_guarded :
    (sendBulkMessages oracleOk [] freshStats).2.1 = freshStats ∧
    showSummary freshStats = ⟨0, 0, 0, JSNum.nan, JSNum.nan, [], none⟩ := by
  decide

/-- C4 (amended): every input whose cleaned form fails the length/prefix
shape test of `validateAndFormatPhone` is rejected with the sentinel;
every recipient produced by `loadRecipientsFromCSV` passed validation
and has the canonical `57` + 10-digit-style shape; `"99999"` is rejected
and excluded.  (Non-numeric characters are not independently checked:
length and leading characters are the only criteria.) -/
theorem C4_strict_validation :
    (∀ p : List Char, shapeAccepts (cleanPhone p) = false → validateAndFormatPhone p = none) ∧
    (∀ content : List Char, ∀ r : Recipient, r ∈ loadRecipientsFromCSV content →
      canonicalShape r.phone = true) ∧
    validateAndFormatPhone "99999".data = none ∧
    loadRecipientsFromCSV "TELEFONO\n99999\n573001234567".data = [⟨"573001234567".data⟩] := by
  refine ⟨validateAndFormatPhone_reject, ?_, by decide, by decide⟩
  intro content r h
  exact loadRecipientsFromCSV_shape content r h

/-- C4 counterexample: `"3abcdefghi"` contains non-numeric characters,
yet `validateAndFormatPhone` accepts it (returning `"573abcdefghi"`) and
`loadRecipientsFromCSV` keeps it, refuting the claim that any input with
non-numeric characters is rejected and excluded. -/
theorem C4_cex :
    ("3abcdefghi".data.all Char.isDigit = false) ∧
    validateAndFormatPhone "3abcdefghi".data = some "573abcdefghi".data ∧
    loadRecipientsFromCSV "TELEFONO\n3abcdefghi".data = [⟨"573abcdefghi".data⟩] := by
  decide

theorem C4_witness :
    (shapeAccepts (cleanPhone "12".data) = false ∧
      validateAndFormatPhone "12".data = none) ∧
    ((⟨"573001234567".data⟩ : Recipient) ∈
        loadRecipientsFromCSV "TELEFONO\n3001234567".data ∧
      canonicalShape (Recipient.phone ⟨"573001234567".data⟩) = true) := by
  refine ⟨⟨by decide, C4_strict_validation.1 "12".data (by decide)⟩,
    ⟨by decide, C4_strict_validation.2.1 "TELEFONO\n3001234567".data
      ⟨"573001234567".data⟩ (by decide)⟩⟩

/-- C5 (amended): after cleaning, `formatPhoneNumber` passes through a
value already carrying the `57` country code, prepends `57` to a bare
10-character value starting with `3`, and for every other input returns
the cleaned value unchanged -- a best-effort pass-through, not a
rejection sentinel (strict rejection lives only in
`validateAndFormatPhone`). -/
theorem C5_loose_normalizer (p : List Char) :
    (startsWith57 (cleanPhone p) = true → formatPhoneNumber p = cleanPhone p) ∧
    (startsWith57 (cleanPhone p) = false → (cleanPhone p).length = 10 →
      (cleanPhone p)[0]? = some '3' →
      formatPhoneNumber p = '5' :: '7' :: cleanPhone p) ∧
    (startsWith57 (cleanPhone p) = false →
      ¬((cleanPhone p).length = 10 ∧ (cleanPhone p)[0]? = some '3') →
      formatPhoneNumber p = cleanPhone p) := by
  refine ⟨?_, ?_, ?_⟩
  · intro h
    unfold formatPhoneNumber
    rw [if_pos h]
  · intro h hlen hget
    unfold formatPhoneNumber
    rw [if_neg (by simp [h]), if_pos (by simp [hlen, hget])]
  · intro h hnot
    unfold formatPhoneNumber
    rw [if_neg (by simp [h]), if_neg ?_]
    intro hc
    simp only [Bool.and_eq_true, beq_iff_eq] at hc
    exact hnot ⟨hc.1, by simpa using hc.2⟩

/-- C5 counterexample: `"12345"` falls in the "every other input" case
(no `57` code, not a 10-character mobile form), yet `formatPhoneNumber`
returns exactly the cleaned pass-through value -- there is no rejection
sentinel distinct from it. -/
theorem C5_cex :
    startsWith57 (cleanPhone "12345".data) = false ∧
    ¬((cleanPhone "12345".data).length = 10 ∧
      (cleanPhone "12345".data)[0]? = some '3') ∧
    formatPhoneNumber "12345".data = cleanPhone "12345".data := by
  decide

theorem C5_witness :
    (startsWith57 (cleanPhone "573001234567".data) = true ∧
      formatPhoneNumber "573001234567".data = cleanPhone "573001234567".data) ∧
    (startsWith57 (cleanPhone "3001234567".data) = false ∧
      formatPhoneNumber "3001234567".data = '5' :: '7' :: cleanPhone "3001234567".data) ∧
    (startsWith57 (cleanPhone "12".data) = false ∧
      formatPhoneNumber "12".data = cleanPhone "12".data) := by
  refine ⟨⟨by decide, (C5_loose_normalizer "573001234567".data).1 (by decide)⟩,
    ⟨by decide, (C5_loose_normalizer "3001234567".data).2.1 (by decide) (by decide) (by decide)⟩,
    ⟨by decide, (C5_loose_normalizer "12".data).2.2 (by decide) (by decide)⟩⟩

/-- C6: normalization prepends the country code `57` exactly once to
every valid 10-digit local mobile number with leading digit `3` (e.g.
`"3001234567"` becomes `"573001234567"`), and on already-prefixed valid
numbers it is the identity, hence idempotent. -/
theorem C6_normalization (s : List Char) :
    (s.all Char.isDigit = true → s.length = 10 → s[0]? = some '3' →
      formatPhoneNumber s = '5' :: '7' :: s) ∧
    (s.all Char.isDigit = true → s.length = 12 → startsWith57 s = true →
      formatPhoneNumber (formatPhoneNumber s) = formatPhoneNumber s) ∧
    formatPhoneNumber "3001234567".data = "573001234567".data := by
  refine ⟨?_, ?_, by decide⟩
  · intro hdig hlen hget
    have hclean : cleanPhone s = s := cleanPhone_digits s hdig
    have hns : startsWith57 s = false := by
      cases s with
      | nil => simp at hlen
      | cons a tail =>
          have ha : a = '3' := by simpa using hget
          subst ha
          rfl
    unfold formatPhoneNumber
    rw [hclean, if_neg (by simp [hns]), if_pos (by simp [hlen, hget])]
  · intro hdig hlen hs57
    have hclean : cleanPhone s = s := cleanPhone_digits s hdig
    have h1 : formatPhoneNumber s = s := by
      unfold formatPhoneNumber
      rw [hclean, if_pos hs57]
    rw [h1]
    exact h1

theorem C6_witness :
    ("3001234567".data.all Char.isDigit = true ∧
      formatPhoneNumber "3001234567".data = '5' :: '7' :: "3001234567".data) ∧
    ("573001234567".data.all Char.isDigit = true ∧
      formatPhoneNumber (formatPhoneNumber "573001234567".data) =
        formatPhoneNumber "573001234567".data) := by
  refine ⟨⟨by decide, (C6_normalization "3001234567".data).1 (by decide) (by decide) (by decide)⟩,
    ⟨by decide, (C6_normalization "573001234567".data).2.1 (by decide) (by decide) (by decide)⟩⟩

/-- C7: `sendBulkMessages` returns exactly one outcome per input
recipient: the result list has the input's length, and position by
position the outcomes address exactly the input phones (so no recipient
is dispatched twice). -/
theorem C7_one_outcome_per_recipient (oracle : Nat → AxiosResult)
    (recipients : List Recipient) (s0 : Stats) :
    (sendBulkMessages oracle recipients s0).1.length = recipients.length ∧
    (sendBulkMessages oracle recipients s0).1.map DispatchOutcome.toPhone =
      recipients.map Recipient.phone := by
  rw [sendBulkMessages_results]
  exact ⟨dispatchAll_length oracle recipients 0, dispatchAll_map_toPhone oracle recipients 0⟩

/-- C8: `sendMessage` never raises past its boundary: it always returns
an outcome addressed to its recipient; a resolved transport with a
message id yields Success carrying that id, a rejection yields Failure
carrying the provider error body when present and otherwise the error
message, and a malformed success response (no message entry) yields
Failure with the generic `TypeError` description. -/
theorem C8_dispatcher_total (p : List Char) (t : AxiosResult) :
    (sendMessage p t).toPhone = p ∧
    (∀ msgId rest, t = AxiosResult.resolved (msgId :: rest) →
      sendMessage p t = DispatchOutcome.success msgId p) ∧
    (∀ responseData message, t = AxiosResult.rejected (some responseData) message →
      sendMessage p t = DispatchOutcome.failure p responseData) ∧
    (∀ message, t = AxiosResult.rejected none message →
      sendMessage p t = DispatchOutcome.failure p message) ∧
    (t = AxiosResult.resolved [] →
      sendMessage p t = DispatchOutcome.failure p undefinedIdMessage) := by
  refine ⟨sendMessage_toPhone p t, ?_, ?_, ?_, ?_⟩
  · intro msgId rest ht
    subst ht
    rfl
  · intro responseData message ht
    subst ht
    rfl
  · intro message ht
    subst ht
    rfl
  · intro ht
    subst ht
    rfl

theorem C8_witness :
    sendMessage "573001234567".data (AxiosResult.resolved ["wamid.A"]) =
      DispatchOutcome.success "wamid.A" "573001234567".data ∧
    sendMessage "573001234567".data (AxiosResult.rejected (some "providerError") "failmsg") =
      DispatchOutcome.failure "573001234567".data "providerError" ∧
    sendMessage "573001234567".data (AxiosResult.rejected none "networkDown") =
      DispatchOutcome.failure "573001234567".data "networkDown" ∧
    sendMessage "573001234567".data (AxiosResult.resolved []) =
      DispatchOutcome.failure "573001234567".data undefinedIdMessage :=
  ⟨(C8_dispatcher_total "573001234567".data (AxiosResult.resolved ["wamid.A"])).2.1
      "wamid.A" [] rfl,
   (C8_dispatcher_total "573001234567".data
      (AxiosResult.rejected (some "providerError") "failmsg")).2.2.1 "providerError" "failmsg" rfl,
   (C8_dispatcher_total "573001234567".data
      (AxiosResult.rejected none "networkDown")).2.2.2.1 "networkDown" rfl,
   (C8_dispatcher_total "573001234567".data (AxiosResult.resolved [])).2.2.2.2 rfl⟩

/-- C9: every dispatch at global position `g` is preceded by the delay
`g * messageDelayUs` (that is, `(batchStartOffset + indexWithinBatch) *
1000/80` ms, in microseconds), so consecutive batch-relative positions
differ by exactly 12500 us = 12.5 ms; with more than one batch the
event at index 50 of the trace is the 1000 ms pause, sitting after the
50 dispatches of batch 1 and immediately before the first dispatch of
batch 2 (global index 50); with at most one batch no pause occurs. -/
theorem C9_batch_pacing (oracle : Nat → AxiosResult) (recipients : List Recipient)
    (s0 : Stats) :
    (∀ g d, SchedEvent.dispatch g d ∈ (sendBulkMessages oracle recipients s0).2.2 →
      d = g * messageDelayUs) ∧
    (∀ g d e, SchedEvent.dispatch g d ∈ (sendBulkMessages oracle recipients s0).2.2 →
      SchedEvent.dispatch (g + 1) e ∈ (sendBulkMessages oracle recipients s0).2.2 →
      e = d + messageDelayUs) ∧
    (50 < recipients.length →
      ((∀ j, j < 50 → ((sendBulkMessages oracle recipients s0).2.2)[j]? =
          some (SchedEvent.dispatch j (j * messageDelayUs))) ∧
       ((sendBulkMessages oracle recipients s0).2.2)[50]? =
         some (SchedEvent.pause interBatchPauseUs) ∧
       ((sendBulkMessages oracle recipients s0).2.2)[51]? =
         some (SchedEvent.dispatch 50 (50 * messageDelayUs)))) ∧
    (recipients.length ≤ 50 →
      ((sendBulkMessages oracle recipients s0).2.2).filter SchedEvent.isPause = []) := by
  have hmem : ∀ g d,
      SchedEvent.dispatch g d ∈ (sendBulkMessages oracle recipients s0).2.2 →
      d = g * messageDelayUs := fun g d h =>
    sendBulkLoop_trace_mem oracle recipients.length recipients.length recipients 0
      ⟨recipients.length, s0.sent, s0.failed, s0.errors⟩ g d h
  refine ⟨hmem, ?_, sendBulkMessages_trace_layout oracle recipients s0,
    sendBulkMessages_trace_noPause oracle recipients s0⟩
  intro g d e hd he
  rw [hmem g d hd, hmem (g + 1) e he, Nat.succ_mul]

/-- Recipient used by the concrete scheduler scenarios. -/
def sampleRecipient : Recipient := ⟨"573001234567".data⟩

/-- A 51-recipient list (two batches: 50 + 1). -/
def recips51 : List Recipient := List.replicate 51 sampleRecipient

/-- A 3-recipient list (a single batch). -/
def recips3 : List Recipient := List.replicate 3 sampleRecipient

theorem C9_witness :
    (50 < recips51.length ∧
      ((sendBulkMessages oracleOk recips51 freshStats).2.2)[0]? =
        some (SchedEvent.dispatch 0 (0 * messageDelayUs)) ∧
      ((sendBulkMessages oracleOk recips51 freshStats).2.2)[50]? =
        some (SchedEvent.pause interBatchPauseUs) ∧
      ((sendBulkMessages oracleOk recips51 freshStats).2.2)[51]? =
        some (SchedEvent.dispatch 50 (50 * messageDelayUs))) ∧
    (recips3.length ≤ 50 ∧
      ((sendBulkMessages oracleOk recips3 freshStats).2.2).filter SchedEvent.isPause = []) ∧
    (SchedEvent.dispatch 1 12500 ∈ (sendBulkMessages oracleOk recips3 freshStats).2.2 ∧
      (12500 : Nat) = 1 * messageDelayUs) := by
  have hlay := (C9_batch_pacing oracleOk recips51 freshStats).2.2.1 (by decide)
  refine ⟨⟨by decide, hlay.1 0 (by decide), hlay.2.1, hlay.2.2⟩,
    ⟨by decide, (C9_batch_pacing oracleOk recips3 freshStats).2.2.2 (by decide)⟩,
    ⟨by decide, (C9_batch_pacing oracleOk recips3 freshStats).1 1 12500 (by decide)⟩⟩

/-- C10: the outcome list of `sendBulkMessages` is in exact input order:
for every index `k`, its `k`-th entry is the dispatch outcome of the
`k`-th input recipient (dispatched at global position `k`). -/
theorem C10_input_order (oracle : Nat → AxiosResult) (recipients : List Recipient)
    (s0 : Stats) (k : Nat) :
    ((sendBulkMessages oracle recipients s0).1)[k]? =
      (recipients[k]?).map fun r => sendMessage r.phone (oracle k) := by
  rw [sendBulkMessages_results]
  have h := dispatchAll_getElem? oracle recipients 0 k
  simpa using h
